import Mathlib

/-!
Shallow embedding of the core of `stream-logs-to-s3` (a streaming
log-to-S3 shipper written in Rust) and proofs about its claims.

The embedding translates, from `src/main.rs`, `src/async_utils.rs` and
`src/error.rs`:
  * the upload strategy selection of `do_send_file`,
  * the part planning loop and failure handling of `send_file_multi`,
  * the response handling of `send_file_part` and of the
    create-multipart-upload step,
  * `parse_s3_url`,
  * `evaluate_pattern_at` together with the base32 nonce encoding and the
    zero-padded date formatting it relies on,
  * the size cap check of `main`,
  * the event loop of `run`,
  * `TaskQueue::poll_next` / `push` / `len`.
Strings are modelled as `List Char`, machine integers as `Nat` (none of the
modelled arithmetic can overflow a `u64`).
-/

/-! ## Constants (from `src/main.rs`) -/

/-- `MAX_PART_SIZE` from the source: the maximum size of one part of a
multipart upload, fixed at 10 MiB (`10 << 20`). -/
def MAX_PART_SIZE : Nat := 10 <<< 20

/-- `S3_MAXIMUM_SIZE` from the source: `Byte::from_bytes(5 << 30)`.  The
source comment calls it the maximum size of an S3 object (5 TiB), but the
value is `5 << 30` = 5 GiB. -/
def S3_MAXIMUM_SIZE : Nat := 5 <<< 30

/-- The size-cap check of `main`: a parsed `--size` value is rejected with a
usage error (exit 2) exactly when `max_size > S3_MAXIMUM_SIZE`. -/
def size_rejected (max_size : Nat) : Bool := max_size > S3_MAXIMUM_SIZE

/-! ## Upload strategy selection (`do_send_file`) -/

/-- The two upload strategies. -/
inductive SendPath where
  | single : SendPath
  | multi : SendPath
deriving DecidableEq, Repr

/-- `do_send_file`'s strategy choice: `if size <= MAX_PART_SIZE` take the
single-shot `PutObject` path, otherwise the multipart path. -/
def do_send_file_path (size : Nat) : SendPath :=
  if size ≤ MAX_PART_SIZE then SendPath.single else SendPath.multi

/-! ## Part planning (`send_file_multi`) -/

/-- One planned part of a multipart upload: its 1-based part number and its
half-open byte range `[lo, hi)` in the finalized file. -/
structure PartRange where
  num : Nat
  lo : Nat
  hi : Nat
deriving DecidableEq, Repr

/-- The part-planning loop of `send_file_multi`:
`while start < size { end = min(start + MAX_PART_SIZE, size); push(part_number, start, end); start = end; part_number += 1 }`. -/
def plan_parts_aux (size : Nat) (start : Nat) (part_number : Nat) : List PartRange :=
  if h : start < size then
    let e := min (start + MAX_PART_SIZE) size
    ⟨part_number, start, e⟩ :: plan_parts_aux size e (part_number + 1)
  else
    []
termination_by size - start
decreasing_by
  have hm : 0 < MAX_PART_SIZE := by decide
  have : start < min (start + MAX_PART_SIZE) size := by
    exact lt_min (by omega) h
  omega

/-- The part plan of `send_file_multi`: starts at offset 0 with part number 1. -/
def plan_parts (size : Nat) : List PartRange := plan_parts_aux size 0 1

/-! ## S3 URL parsing (`parse_s3_url`) -/

/-- The reasons `parse_s3_url` rejects a URL, one constructor per distinct
`InvalidURLFormat` message in the source: `"URL must begin with 's3://'"`,
`"bucket/path cannot be empty"`, `"path cannot be empty"`. -/
inductive UrlErr where
  | mustBeginWithS3 : UrlErr
  | bucketPathEmpty : UrlErr
  | pathEmpty : UrlErr
deriving DecidableEq, Repr

/-- The characters of the `S3_PROTO_PREFIX` constant `"s3://"`. -/
def s3_proto_chars : List Char := "s3://".toList

/-- Rust's `str::splitn(2, '/')` on a char list: everything before the first
`'/'`, and `some` remainder after it (or `none` when there is no `'/'`). -/
def split_first_slash : List Char → List Char × Option (List Char)
  | [] => ([], none)
  | c :: rest =>
    if c = '/' then ([], some rest)
    else
      let (a, b) := split_first_slash rest
      (c :: a, b)

/-- `parse_s3_url` from the source: require the `"s3://"` on the front, split
the remainder at the first `'/'` into bucket and object-name pattern
(missing pattern becomes `""` via `unwrap_or`), then reject an empty bucket
(`bucketPathEmpty`) and an empty pattern (`pathEmpty`). -/
def parse_s3_url (s3_url : List Char) : Except UrlErr (List Char × List Char) :=
  if s3_url.take s3_proto_chars.length = s3_proto_chars then
    let bucket_and_pre := s3_url.drop s3_proto_chars.length
    let (bucket, rest) := split_first_slash bucket_and_pre
    let object_name_pattern := rest.getD []
    if bucket = [] then Except.error UrlErr.bucketPathEmpty
    else if object_name_pattern = [] then Except.error UrlErr.pathEmpty
    else Except.ok (bucket, object_name_pattern)
  else
    Except.error UrlErr.mustBeginWithS3

example : parse_s3_url "s3://bucket/path/x".toList = Except.ok ("bucket".toList, "path/x".toList) := by rfl
example : parse_s3_url "s3://bucket/".toList = Except.error UrlErr.pathEmpty := by rfl
example : parse_s3_url "s3:///p".toList = Except.error UrlErr.bucketPathEmpty := by rfl
example : parse_s3_url "s3:bucket/path".toList = Except.error UrlErr.mustBeginWithS3 := by rfl

/-! ## Multipart completion / abort logic (`send_file_multi`, lines 607-675) -/

/-- The collection loop of `send_file_multi`: drain the ordered part results;
each `Ok((part_number, e_tag))` is appended to `completed_parts`, each `Err(e)`
overwrites `saved_error`.  Returns `(completed_parts, saved_error)`. -/
def collect_parts {E T : Type} (part_results : List (Except E (Nat × T))) :
    List (Nat × T) × Option E :=
  part_results.foldl
    (fun acc r => match r with
      | Except.ok p => (acc.1 ++ [p], acc.2)
      | Except.error e => (acc.1, some e))
    ([], none)

/-- What `send_file_multi` does after all part futures have completed, given
the ordered part results, the result of `complete_multipart_upload` (consulted
only when every part succeeded) and the result of `abort_multipart_upload`
(consulted only on the failure path).  Returns the task's result together with
whether an abort was attempted. -/
def multi_finish {E T U A : Type} (part_results : List (Except E (Nat × T)))
    (commit_result : Except E U) (abort_result : Except E A) :
    Except E (Option (List (Nat × T))) × Bool :=
  let (completed_parts, saved_error) := collect_parts part_results
  match saved_error with
  | none =>
    match commit_result with
    | Except.ok _ => (Except.ok (some completed_parts), false)
    | Except.error e =>
      match abort_result with
      | Except.ok _ => (Except.error e, true)
      | Except.error _ => (Except.error e, true)
  | some e =>
    match abort_result with
    | Except.ok _ => (Except.error e, true)
    | Except.error _ => (Except.error e, true)

/-- The error reported by the claim's reading of the spec: the most recently
observed part error, i.e. the last `Err` in the ordered result list. -/
def last_part_error {E T : Type} (part_results : List (Except E (Nat × T))) : Option E :=
  part_results.foldl
    (fun acc r => match r with
      | Except.error e => some e
      | Except.ok _ => acc)
    none

/-- The result `send_file_multi` is specified to produce, written from the
spec's words: if any part failed, the most recently observed part error;
otherwise the commit result (with the ordered completed parts on success). -/
def spec_multi_result {E T U : Type} (part_results : List (Except E (Nat × T)))
    (commit_result : Except E U) : Except E (Option (List (Nat × T))) :=
  match last_part_error part_results with
  | some e => Except.error e
  | none =>
    match commit_result with
    | Except.ok _ => Except.ok (some ((collect_parts part_results).1))
    | Except.error e => Except.error e

/-- Whether the spec says an abort must be attempted: some part failed, or the
commit itself failed. -/
def spec_abort_attempted {E T U : Type} (part_results : List (Except E (Nat × T)))
    (commit_result : Except E U) : Bool :=
  match last_part_error part_results, commit_result with
  | some _, _ => true
  | none, Except.error _ => true
  | none, Except.ok _ => false

/-! ## Part-task response handling (`send_file_part`) and session creation -/

/-- The outcome of running one part-upload task to its end: either the task
completes with a `Result`, or it panics (the source's `unwrap()` of a missing
entity tag). -/
inductive TaskEnd (α : Type) where
  | completes (r : α) : TaskEnd α
  | panics : TaskEnd α
deriving DecidableEq, Repr

/-- `send_file_part` from the source, as a function of the outcomes of its
three fallible steps: reopening the temp file, seeking to `start`, and the
`upload_part` request (whose success carries the optional `e_tag` field).
An `Ok` response without an `e_tag` hits `result.e_tag.unwrap()` and panics. -/
def send_file_part {E T : Type} (open_result : Except E Unit) (seek_result : Except E Unit)
    (upload_result : Except E (Option T)) (part_number : Nat) :
    TaskEnd (Except E (Nat × T)) :=
  match open_result with
  | Except.error e => TaskEnd.completes (Except.error e)
  | Except.ok _ =>
    match seek_result with
    | Except.error e => TaskEnd.completes (Except.error e)
    | Except.ok _ =>
      match upload_result with
      | Except.ok result =>
        match result with
        | some e_tag => TaskEnd.completes (Except.ok (part_number, e_tag))
        | none => TaskEnd.panics
      | Except.error e => TaskEnd.completes (Except.error e)

/-- The `SendFileError`-level shape of the create-multipart-upload step:
either a wrapped store error or the dedicated `NoUploadPartId` variant. -/
inductive CreateErr (E : Type) where
  | store (e : E) : CreateErr E
  | noUploadPartId : CreateErr E
deriving DecidableEq, Repr

/-- The create-session step of `send_file_multi`: a success response whose
`upload_id` field is `None` becomes the `NoUploadPartId` error (no panic),
a success with an id yields the id, an error is wrapped and returned. -/
def create_session {E U : Type} (create_result : Except E (Option U)) :
    TaskEnd (Except (CreateErr E) U) :=
  match create_result with
  | Except.ok resp =>
    match resp with
    | none => TaskEnd.completes (Except.error (CreateErr.noUploadPartId))
    | some upload_id => TaskEnd.completes (Except.ok upload_id)
  | Except.error e => TaskEnd.completes (Except.error (CreateErr.store e))

/-! ## Task set (`TaskQueue` in `src/async_utils.rs`) -/

/-- The result of polling a stream, as in `std::task::Poll`. -/
inductive PollRes (α : Type) where
  | ready (a : α) : PollRes α
  | pending : PollRes α
deriving DecidableEq, Repr

/-- The state of a `FuturesUnordered`: the in-flight tasks in insertion order,
`some v` for a task that has completed with value `v` but has not been yielded
yet, `none` for a task still running. -/
def extract_first_done {α : Type} : List (Option α) → Option (α × List (Option α))
  | [] => none
  | some v :: rest => some (v, rest)
  | none :: rest =>
    (extract_first_done rest).map (fun p => (p.1, none :: p.2))

/-- `FuturesUnordered::poll_next`: on an empty set it is ready with `none`
(end of stream); otherwise it yields a completed task if there is one and is
pending if every task is still running. -/
def futures_unordered_poll_next {α : Type} (tasks : List (Option α)) :
    PollRes (Option α) × List (Option α) :=
  if tasks.isEmpty then (PollRes.ready none, tasks)
  else
    match extract_first_done tasks with
    | some (v, rest) => (PollRes.ready (some v), rest)
    | none => (PollRes.pending, tasks)

/-- `TaskQueue::poll_next` from the source: `if self.f.is_empty() {
Poll::Pending } else { self.f.poll_next(cx) }`. -/
def task_queue_poll_next {α : Type} (tasks : List (Option α)) :
    PollRes (Option α) × List (Option α) :=
  if tasks.isEmpty then (PollRes.pending, tasks)
  else futures_unordered_poll_next tasks

/-- `TaskQueue::push`: delegate to `FuturesUnordered::push`, which appends the
task to the set. -/
def task_queue_push {α : Type} (tasks : List (Option α)) (t : Option α) : List (Option α) :=
  tasks ++ [t]

/-- `TaskQueue::len`: the number of in-flight tasks. -/
def task_queue_len {α : Type} (tasks : List (Option α)) : Nat := tasks.length

/-! ## The event loop (`run`, `src/main.rs` lines 326-443) -/

/-- The outcome of one `reader.read(&mut buf)` in the select loop, with the
success or failure of the subsequent `file.write_all` when bytes arrived:
`bytes 0 _` is the source's `Ok(0)` (input closed), `bytes n _` with `n > 0`
is `Ok(n_read)`, `readErr` is `Err(e)` (stream shut down). -/
inductive ReadOutcome where
  | bytes (n : Nat) (write_ok : Bool) : ReadOutcome
  | readErr : ReadOutcome
deriving DecidableEq, Repr

/-- One firing of the three-way `select!` in `run`: the segment deadline
elapsing, the reader returning, or an upload task completing. -/
inductive LoopEvent where
  | timeoutFires : LoopEvent
  | readReturns (r : ReadOutcome) : LoopEvent
  | completionArrives : LoopEvent
deriving DecidableEq, Repr

/-- What a run of the event loop leaves behind: the uncompressed sizes of the
sealed segments in seal order, and the sizes of the segments for which an
upload task was pushed to the task set. -/
structure RunTrace where
  sealedSizes : List Nat
  pushedSizes : List Nat
deriving DecidableEq, Repr

/-- Prepend a freshly sealed segment of size `n` to a trace; the upload task
is pushed only when `evaluate_pattern` succeeded (`pattern_ok`). -/
def seal_segment (pattern_ok : Bool) (n : Nat) (t : RunTrace) : RunTrace :=
  ⟨n :: t.sealedSizes, if pattern_ok then n :: t.pushedSizes else t.pushedSizes⟩

/-- The event loop of `run`, driven by a schedule of select outcomes.
`current_size` is the byte count of the segment currently accepting writes.
Each branch mirrors the source:
  * timeout: seal and push, `break` the inner loop (a new segment starts);
  * `Ok(0)`: flush required with `bad_reader`, so seal, push, `break 'outer`,
    drain, and return `Ok(())` — the run terminates normally;
  * `Ok(n_read)` with a successful write: grow `current_size`; when it
    reaches `max_size`, seal, push and start a new segment;
  * `Ok(n_read)` with a failed write: seal and push immediately, keep reading;
  * `Err(_)`: like `Ok(0)`: seal, push, terminate;
  * a completion: logged only, the loop continues.
`none` means the schedule ran out while the loop was still waiting. -/
def run_loop (max_size : Nat) (pattern_ok : Bool) :
    List LoopEvent → Nat → Option RunTrace
  | [], _ => none
  | LoopEvent.timeoutFires :: rest, current_size =>
    (run_loop max_size pattern_ok rest 0).map (seal_segment pattern_ok current_size)
  | LoopEvent.completionArrives :: rest, current_size =>
    run_loop max_size pattern_ok rest current_size
  | LoopEvent.readReturns ReadOutcome.readErr :: _, current_size =>
    some (seal_segment pattern_ok current_size ⟨[], []⟩)
  | LoopEvent.readReturns (ReadOutcome.bytes 0 _) :: _, current_size =>
    some (seal_segment pattern_ok current_size ⟨[], []⟩)
  | LoopEvent.readReturns (ReadOutcome.bytes (n + 1) write_ok) :: rest, current_size =>
    if write_ok then
      let new_size := current_size + (n + 1)
      if new_size ≥ max_size then
        (run_loop max_size pattern_ok rest 0).map (seal_segment pattern_ok new_size)
      else
        run_loop max_size pattern_ok rest new_size
    else
      (run_loop max_size pattern_ok rest 0).map (seal_segment pattern_ok current_size)

/-- A schedule in which the reader hands over the given chunks in order, every
write succeeds, and then the input closes. -/
def chunked_input (chunks : List Nat) : List LoopEvent :=
  chunks.map (fun n => LoopEvent.readReturns (ReadOutcome.bytes n true)) ++
    [LoopEvent.readReturns (ReadOutcome.bytes 0 true)]

example : run_loop 4 true (chunked_input [4]) 0 = some ⟨[4, 0], [4, 0]⟩ := by rfl
example : run_loop 4 true (chunked_input [2, 2]) 0 = some ⟨[4, 0], [4, 0]⟩ := by rfl
example : run_loop 4 true (chunked_input [2]) 0 = some ⟨[2], [2]⟩ := by rfl

/-! ## Decimal formatting (Rust `format!` with `{:02}` / `{:04}`) -/

/-- Decimal digits of `n`, most significant first, computed with explicit
fuel (one unit per digit; `fuel = n + 1` is always enough). -/
def dec_digits_aux : Nat → Nat → List Char
  | 0, _ => []
  | fuel + 1, n =>
    if n < 10 then [Nat.digitChar n]
    else dec_digits_aux fuel (n / 10) ++ [Nat.digitChar (n % 10)]

/-- The decimal representation of `n` (`"0"` for zero), as Rust's `Display`
for unsigned integers produces it. -/
def dec_repr (n : Nat) : List Char := dec_digits_aux (n + 1) n

/-- Rust's `format!("{:0w}", n)`: the decimal representation left-padded with
`'0'` up to width `w`. -/
def zero_pad (w : Nat) (n : Nat) : List Char :=
  List.replicate (w - (dec_repr n).length) '0' ++ dec_repr n

example : zero_pad 2 5 = "05".toList := by rfl
example : zero_pad 2 10 = "10".toList := by rfl
example : zero_pad 4 2020 = "2020".toList := by rfl
example : zero_pad 2 0 = "00".toList := by rfl

/-! ## Base32 (the `base32` crate with `Alphabet::RFC4648 { padding: false }`,
modelled from RFC 4648: bytes are split into 5-bit groups, most significant
bit first, a final short group is zero-padded on the right, and no `'='`
padding characters are appended) -/

/-- The 32-character RFC 4648 base32 alphabet. -/
def base32_alphabet : List Char := "ABCDEFGHIJKLMNOPQRSTUVWXYZ234567".toList

/-- The character for 5-bit value `n`. -/
def base32_char (n : Nat) : Char := base32_alphabet.getD n '?'

/-- The eight bits of a byte, most significant first. -/
def byte_bits (b : Nat) : List Bool :=
  [b.testBit 7, b.testBit 6, b.testBit 5, b.testBit 4,
   b.testBit 3, b.testBit 2, b.testBit 1, b.testBit 0]

/-- The value of one bit. -/
def bit_val (b : Bool) : Nat := if b then 1 else 0

/-- Split a bit string into 5-bit group values, zero-filling a short final
group on the right as RFC 4648 prescribes. -/
def groups_of_5 : List Bool → List Nat
  | b4 :: b3 :: b2 :: b1 :: b0 :: rest =>
    (16 * bit_val b4 + 8 * bit_val b3 + 4 * bit_val b2 + 2 * bit_val b1 + bit_val b0)
      :: groups_of_5 rest
  | [] => []
  | l =>
    [(16 * bit_val (l.getD 0 false) + 8 * bit_val (l.getD 1 false) +
      4 * bit_val (l.getD 2 false) + 2 * bit_val (l.getD 3 false) +
      bit_val (l.getD 4 false))]

/-- `base32::encode(Alphabet::RFC4648 { padding: false }, bytes)`. -/
def base32_encode (bytes : List Nat) : List Char :=
  (groups_of_5 (bytes.flatMap byte_bits)).map base32_char

example :
    base32_encode [0x4b, 0xd6, 0x97, 0xad, 0x2f, 0x5a, 0x5e, 0xb4, 0xbd, 0x69, 0x7a, 0xd2, 0xf5, 0xa5, 0xeb]
      = "JPLJPLJPLJPLJPLJPLJPLJPL".toList := by rfl

/-! ## Template evaluation (`evaluate_pattern_at`) -/

/-- A UTC wall-clock timestamp as the `time` crate hands it to
`evaluate_pattern_at`: numeric year, month (1-12), day, hour, minute,
second. -/
structure UTCTime where
  year : Nat
  month : Nat
  day : Nat
  hour : Nat
  minute : Nat
  second : Nat
deriving DecidableEq, Repr

/-- Whether a character counts as whitespace for `str::trim`. -/
def is_space_char (c : Char) : Bool := c = ' ' ∨ c = '\t' ∨ c = '\n' ∨ c = '\r'

/-- Rust's `str::trim`: drop whitespace from both ends. -/
def trim_chars (l : List Char) : List Char :=
  ((l.dropWhile is_space_char).reverse.dropWhile is_space_char).reverse

/-- The `variables` map built by `evaluate_pattern_at`, as a lookup function:
`host_id` as-is, `year` as `{:04}`, the other date fields as `{:02}` (the
month is its numeric value 1-12), and `unique` as the unpadded RFC 4648
base32 encoding of the nonce. -/
def template_variables (host_id : List Char) (now : UTCTime) (unique : List Nat)
    (name : List Char) : Option (List Char) :=
  if name = "host_id".toList then some host_id
  else if name = "year".toList then some (zero_pad 4 now.year)
  else if name = "month".toList then some (zero_pad 2 now.month)
  else if name = "day".toList then some (zero_pad 2 now.day)
  else if name = "hour".toList then some (zero_pad 2 now.hour)
  else if name = "minute".toList then some (zero_pad 2 now.minute)
  else if name = "second".toList then some (zero_pad 2 now.second)
  else if name = "unique".toList then some (base32_encode unique)
  else none

/-- The template-syntax errors of `evaluate_pattern_at`, one constructor per
distinct `InvalidTemplateSyntax` message: `"Unmatched '{'"` (an opening brace
never closed), `"Unmatched '}'"` (a bare closing brace), and
`"Unknown template variable '<name>'"` carrying the trimmed name. -/
inductive TemplateErr where
  | unmatchedOpen : TemplateErr
  | unmatchedClose : TemplateErr
  | unknownVariable (name : List Char) : TemplateErr
deriving DecidableEq, Repr

/-- The scanning loop of `evaluate_pattern_at` over the pattern's characters.
The first argument is the scanner state: `none` while outside a variable,
`some acc` while inside `{...}` with the name characters read so far in
reverse.  Each equation mirrors one step of the source loop:
  * `'{'` at the end of input, or end of input inside a variable, is
    `Unmatched '{'`;
  * `"{{"` emits a literal `'{'`;
  * any other character after `'{'` starts (or, for `'}'`, immediately ends)
    a variable name;
  * a name is closed by `'}'`, trimmed, looked up, and its replacement
    emitted (an unknown name is an error);
  * `'}'` outside a variable must be doubled to a literal `'}'`, anything
    else is `Unmatched '}'`. -/
def eval_pattern_chars (vars : List Char → Option (List Char)) :
    Option (List Char) → List Char → Except TemplateErr (List Char)
  | none, [] => Except.ok []
  | none, c :: rest =>
    if c = '{' then
      match rest with
      | [] => Except.error TemplateErr.unmatchedOpen
      | c2 :: rest2 =>
        if c2 = '{' then (eval_pattern_chars vars none rest2).map (fun r => '{' :: r)
        else eval_pattern_chars vars (some []) (c2 :: rest2)
    else if c = '}' then
      match rest with
      | [] => Except.error TemplateErr.unmatchedClose
      | c2 :: rest2 =>
        if c2 = '}' then (eval_pattern_chars vars none rest2).map (fun r => '}' :: r)
        else Except.error TemplateErr.unmatchedClose
    else (eval_pattern_chars vars none rest).map (fun r => c :: r)
  | some _, [] => Except.error TemplateErr.unmatchedOpen
  | some acc, c :: rest =>
    if c = '}' then
      match vars (trim_chars acc.reverse) with
      | none => Except.error (TemplateErr.unknownVariable (trim_chars acc.reverse))
      | some repl => (eval_pattern_chars vars none rest).map (fun r => repl ++ r)
    else eval_pattern_chars vars (some (c :: acc)) rest

/-- `evaluate_pattern_at(pattern, host_id, now, unique)` from the source. -/
def evaluate_pattern_at (pattern : List Char) (host_id : List Char) (now : UTCTime)
    (unique : List Nat) : Except TemplateErr (List Char) :=
  eval_pattern_chars (template_variables host_id now unique) none pattern

example :
    evaluate_pattern_at
      "test {host_id} {year}-{month}-{day}T{hour}:{minute}:{second}Z {unique}".toList
      "localhost".toList ⟨2020, 5, 4, 15, 20, 10⟩
      [0x4b, 0xd6, 0x97, 0xad, 0x2f, 0x5a, 0x5e, 0xb4, 0xbd, 0x69, 0x7a, 0xd2, 0xf5, 0xa5, 0xeb]
      = Except.ok "test localhost 2020-05-04T15:20:10Z JPLJPLJPLJPLJPLJPLJPLJPL".toList := by
  rfl

example :
    evaluate_pattern_at "test {{host_id}} {{year}}".toList "h".toList ⟨2020, 5, 4, 15, 20, 10⟩ []
      = Except.ok "test {host_id} {year}".toList := by
  rfl

example :
    evaluate_pattern_at "test \x7bhost_id".toList "h".toList ⟨2020, 5, 4, 15, 20, 10⟩ []
      = Except.error TemplateErr.unmatchedOpen := by
  rfl

example :
    evaluate_pattern_at "test host_id\x7d".toList "h".toList ⟨2020, 5, 4, 15, 20, 10⟩ []
      = Except.error TemplateErr.unmatchedClose := by
  rfl

/-! ## The spec's description of template-syntax errors (for the refinement
claim about error handling, this second definition follows the spec's words
rather than the source) -/

/-- The eight recognized template variable names. -/
def template_variable_names : List (List Char) :=
  ["host_id".toList, "year".toList, "month".toList, "day".toList,
   "hour".toList, "minute".toList, "second".toList, "unique".toList]

/-- Split a char list at the first `'}'`: the characters before it and the
remainder after it, or `none` when there is no `'}'` at all. -/
def split_at_close : List Char → Option (List Char × List Char)
  | [] => none
  | c :: rest =>
    if c = '}' then some ([], rest)
    else (split_at_close rest).map (fun p => (c :: p.1, p.2))

/-- Modelled from the spec (section 4.2): scan the pattern left to right;
`"{{"` and `"}}"` are literals; a bare `'{'` opens a variable whose name runs
to the next `'}'` and is trimmed of surrounding whitespace — end of input
before that `'}'` is `Unmatched '{'`; a name that is none of the eight
recognized variables is `Unknown template variable '<name>'`; a bare `'}'`
outside a variable with no matching doubling is `Unmatched '}'`; in all
other cases the scan succeeds. -/
def spec_template_scan : List Char → Except TemplateErr Unit
  | [] => Except.ok ()
  | c :: rest =>
    if c = '{' then
      match rest with
      | [] => Except.error TemplateErr.unmatchedOpen
      | c2 :: rest2 =>
        if c2 = '{' then spec_template_scan rest2
        else
          match h : split_at_close (c2 :: rest2) with
          | none => Except.error TemplateErr.unmatchedOpen
          | some (nm, rest3) =>
            if trim_chars nm ∈ template_variable_names then spec_template_scan rest3
            else Except.error (TemplateErr.unknownVariable (trim_chars nm))
    else if c = '}' then
      match rest with
      | [] => Except.error TemplateErr.unmatchedClose
      | c2 :: rest2 =>
        if c2 = '}' then spec_template_scan rest2
        else Except.error TemplateErr.unmatchedClose
    else spec_template_scan rest
termination_by l => l.length
decreasing_by
all_goals simp
all_goals try omega
have key : ∀ (m nm r2 : List Char), split_at_close m = some (nm, r2) → r2.length < m.length := by
  intro m
  induction m with
  | nil => intro nm r2 hsplit; simp [split_at_close] at hsplit
  | cons c m ih =>
    intro nm r2 hsplit
    by_cases hc : c = '}'
    · simp [split_at_close, hc] at hsplit
      obtain ⟨h1, h2⟩ := hsplit
      subst h2
      simp
    · simp [split_at_close, hc] at hsplit
      obtain ⟨p, hp, hnm⟩ := hsplit
      have := ih p r2 hp
      simp
      omega
have := key _ _ _ h
simp at this
omega

/-- Forget the substituted output, keeping only success or the error. -/
def template_outcome (r : Except TemplateErr (List Char)) : Except TemplateErr Unit :=
  match r with
  | Except.ok _ => Except.ok ()
  | Except.error e => Except.error e

/-! # Theorems -/

/-! ## C8: the size cap -/

/-- Claim C8 (code bug): a parsed `--size` is claimed (and documented in the
source's own comment on `S3_MAXIMUM_SIZE`) to be accepted up to 5 TiB, but
the constant is `5 << 30` = 5 GiB, so the concrete in-range size 6 GiB
(`6 * 2^30 ≤ 5 * 2^40`) is rejected with a usage error. -/
theorem c8_size_cap_is_5GiB_not_5TiB :
    S3_MAXIMUM_SIZE = 5 * 2 ^ 30 ∧
    S3_MAXIMUM_SIZE < 5 * 2 ^ 40 ∧
    size_rejected (6 * 2 ^ 30) = true ∧
    6 * 2 ^ 30 ≤ 5 * 2 ^ 40 := by
  refine ⟨by norm_num [S3_MAXIMUM_SIZE, Nat.shiftLeft_eq], by norm_num [S3_MAXIMUM_SIZE, Nat.shiftLeft_eq], ?_, by norm_num⟩
  norm_num [size_rejected, S3_MAXIMUM_SIZE, Nat.shiftLeft_eq]

/-! ## C10: missing e_tag panics, missing upload_id does not -/

/-- Claim C10: in a part-upload task whose reopen and seek succeeded, a
successful upload-part response without an entity tag makes the task panic
(never an `Err` completion); the task completes with an error exactly for a
failed request (or a failed reopen/seek); and in contrast the create-session
step turns a missing `upload_id` into the `NoUploadPartId` error rather than
panicking. -/
theorem c10_missing_etag_panics {E T : Type} (pn : Nat) (etag : T) (e : E) :
    send_file_part (E := E) (T := T) (Except.ok ()) (Except.ok ()) (Except.ok none) pn
      = TaskEnd.panics ∧
    send_file_part (E := E) (Except.ok ()) (Except.ok ()) (Except.ok (some etag)) pn
      = TaskEnd.completes (Except.ok (pn, etag)) ∧
    send_file_part (T := T) (Except.ok ()) (Except.ok ()) (Except.error e) pn
      = TaskEnd.completes (Except.error e) ∧
    (∀ upload_result : Except E (Option T),
      (∃ e', send_file_part (Except.ok ()) (Except.ok ()) upload_result pn
          = TaskEnd.completes (Except.error e')) ↔
      (∃ e', upload_result = Except.error e')) ∧
    send_file_part (T := T) (Except.error e) (Except.ok ()) (Except.ok none) pn
      = TaskEnd.completes (Except.error e) ∧
    send_file_part (T := T) (Except.ok ()) (Except.error e) (Except.ok none) pn
      = TaskEnd.completes (Except.error e) ∧
    create_session (E := E) (U := T) (Except.ok none)
      = TaskEnd.completes (Except.error CreateErr.noUploadPartId) := by
  refine ⟨rfl, rfl, rfl, ?_, rfl, rfl, rfl⟩
  intro upload_result
  constructor
  · rintro ⟨e', he'⟩
    match upload_result with
    | Except.ok (some t) => simp [send_file_part] at he'
    | Except.ok none => simp [send_file_part] at he'
    | Except.error e0 => exact ⟨e0, rfl⟩
  · rintro ⟨e', rfl⟩
    exact ⟨e', rfl⟩

/-! ## C9: the task queue never terminates and yields one completion per task -/

/-- `extract_first_done` removes exactly one completed task: the yielded value
was the first completed task in the set and the rest is the set without it. -/
theorem extract_first_done_shape {α : Type} :
    ∀ (ts : List (Option α)) (v : α) (rest : List (Option α)),
      extract_first_done ts = some (v, rest) →
      ∃ l r, ts = l ++ some v :: r ∧ rest = l ++ r := by
  intro ts
  induction ts with
  | nil => intro v rest h; simp [extract_first_done] at h
  | cons hd tl ih =>
    intro v rest h
    match hd with
    | some w =>
      simp [extract_first_done] at h
      exact ⟨[], tl, by simp [h.1, h.2]⟩
    | none =>
      simp [extract_first_done] at h
      obtain ⟨a, b, hab, hav, hbrest⟩ := h
      subst hav
      obtain ⟨l, r, hl, hr⟩ := ih a b hab
      refine ⟨none :: l, r, by simp [hl], ?_⟩
      rw [← hbrest, hr]
      simp

/-- Claim C9: polling the task queue with zero in-flight tasks returns
pending (the caller suspends) and the queue never yields the underlying
`FuturesUnordered`'s terminal `ready none`; a `push` grows the set by exactly
one task, and every `ready` poll removes exactly the yielded task from the
set while a `pending` poll leaves the set unchanged — so each pushed task is
yielded in exactly one completion event. -/
theorem c9_task_queue_poll {α : Type} (ts : List (Option α)) (t : Option α) :
    task_queue_poll_next ([] : List (Option α)) = (PollRes.pending, []) ∧
    (task_queue_poll_next ts).1 ≠ PollRes.ready none ∧
    task_queue_len (task_queue_push ts t) = task_queue_len ts + 1 ∧
    (match task_queue_poll_next ts with
     | (PollRes.ready (some v), rest) => ∃ l r, ts = l ++ some v :: r ∧ rest = l ++ r
     | (PollRes.ready none, _) => False
     | (PollRes.pending, rest) => rest = ts) := by
  refine ⟨rfl, ?_, by simp [task_queue_len, task_queue_push], ?_⟩
  · unfold task_queue_poll_next futures_unordered_poll_next
    by_cases he : ts.isEmpty
    · simp [he]
    · simp [he]
      match hx : extract_first_done ts with
      | some (v, rest) => simp
      | none => simp
  · unfold task_queue_poll_next futures_unordered_poll_next
    by_cases he : ts.isEmpty
    · simp [he]
    · simp [he]
      match hx : extract_first_done ts with
      | some (v, rest) =>
        simp
        exact extract_first_done_shape ts v rest hx
      | none => simp

/-! ## C4: multipart failure handling -/

/-- The `saved_error` accumulated by the collection loop is exactly the most
recently observed part error. -/
theorem collect_parts_saved_error {E T : Type} :
    ∀ (rs : List (Except E (Nat × T))) (cs : List (Nat × T)) (saved : Option E),
      (rs.foldl
        (fun acc r => match r with
          | Except.ok p => (acc.1 ++ [p], acc.2)
          | Except.error e => (acc.1, some e))
        (cs, saved)).2 =
      rs.foldl
        (fun acc r => match r with
          | Except.error e => some e
          | Except.ok _ => acc)
        saved := by
  intro rs
  induction rs with
  | nil => intro cs saved; rfl
  | cons hd tl ih =>
    intro cs saved
    match hd with
    | Except.ok p => simpa using ih (cs ++ [p]) saved
    | Except.error e => simpa using ih cs (some e)

/-- Claim C4: after the part futures are drained, `send_file_multi` behaves
exactly as the spec describes: whenever at least one part failed, or every
part succeeded but the commit failed, an abort is attempted and the task
returns the primary error — the most recently observed part error when parts
failed, otherwise the commit error — no matter whether the abort itself
succeeded or failed; when everything succeeded no abort happens and the
ordered completed-part list is committed. -/
theorem c4_multi_abort_and_error_precedence {E T U A : Type}
    (part_results : List (Except E (Nat × T)))
    (commit_result : Except E U) (abort_result : Except E A) :
    multi_finish part_results commit_result abort_result =
      (spec_multi_result part_results commit_result,
       spec_abort_attempted part_results commit_result) := by
  unfold multi_finish spec_multi_result spec_abort_attempted
  have hsaved : (collect_parts part_results).2 = last_part_error part_results :=
    collect_parts_saved_error part_results [] none
  rcases hcp : collect_parts part_results with ⟨cs, saved⟩
  rw [hcp] at hsaved
  simp at hsaved
  rw [← hsaved]
  match saved with
  | none =>
    match commit_result with
    | Except.ok _ => simp [hcp]
    | Except.error e =>
      match abort_result with
      | Except.ok _ => simp
      | Except.error _ => simp
  | some e =>
    match abort_result with
    | Except.ok _ => simp
    | Except.error _ => simp

/-! ## C5: the URL parser as an inverse of URL construction -/

/-- Counterexample to claim C5 as stated: with the non-empty bucket string
`"a/b"` (which contains a slash) and the non-empty path `"c"`, parsing
`"s3://" + "a/b" + "/" + "c"` does not return `("a/b", "c")` — it splits at
the first slash and returns `("a", "b/c")`. -/
theorem c5_counterexample_slash_in_bucket :
    "a/b".toList ≠ [] ∧ "c".toList ≠ [] ∧
    parse_s3_url ("s3://".toList ++ "a/b".toList ++ "/".toList ++ "c".toList)
      = Except.ok ("a".toList, "b/c".toList) ∧
    Except.ok ("a".toList, "b/c".toList)
      ≠ (Except.ok ("a/b".toList, "c".toList) : Except UrlErr (List Char × List Char)) := by
  refine ⟨by simp, by simp, by rfl, ?_⟩
  intro h
  have := Except.ok.inj h
  simp at this

/-- Splitting at the first slash undoes appending a slash, provided the left
part contains no slash. -/
theorem split_first_slash_append :
    ∀ (b p : List Char), '/' ∉ b →
      split_first_slash (b ++ '/' :: p) = (b, some p) := by
  intro b
  induction b with
  | nil => intro p _; simp [split_first_slash]
  | cons c rest ih =>
    intro p hb
    have hc : c ≠ '/' := by
      intro hc; exact hb (by simp [hc])
    have hrest : '/' ∉ rest := by
      intro hr; exact hb (by simp [hr])
    simp [split_first_slash, hc, ih p hrest]

/-- Claim C5, amended: the parser inverts URL construction for every
non-empty bucket that contains no `'/'` and every non-empty path (the path
may itself contain slashes and braces).  A bucket containing a slash is
instead split at its first slash, as the counterexample shows. -/
theorem c5_parse_inverts_construction (b p : List Char)
    (hb : b ≠ []) (hp : p ≠ []) (hslash : '/' ∉ b) :
    parse_s3_url ("s3://".toList ++ b ++ '/' :: p) = Except.ok (b, p) := by
  have hproto : "s3://".toList = s3_proto_chars := rfl
  rw [hproto]
  unfold parse_s3_url
  have hassoc : s3_proto_chars ++ b ++ '/' :: p = s3_proto_chars ++ (b ++ '/' :: p) := by
    simp
  rw [hassoc, List.take_left, List.drop_left]
  simp only [if_pos rfl]
  rw [split_first_slash_append b p hslash]
  simp [hb, hp]

/-- Witness for the amended C5 at `b = "bucket"`, `p = "path/{host_id}"`. -/
theorem c5_parse_inverts_construction_witness :
    "bucket".toList ≠ [] ∧ "path/x".toList ≠ [] ∧ '/' ∉ "bucket".toList ∧
    parse_s3_url ("s3://".toList ++ "bucket".toList ++ '/' :: "path/x".toList)
      = Except.ok ("bucket".toList, "path/x".toList) :=
  ⟨by decide, by decide, by decide,
    c5_parse_inverts_construction "bucket".toList "path/x".toList
      (by decide) (by decide) (by decide)⟩

/-! ## C1: a run that delivers exactly `max_size` bytes and then closes -/

/-- Counterexample to claim C1 as stated: with `max_size = 4`, a single read
of 4 bytes followed by the input closing seals TWO segments and pushes TWO
upload tasks — the full 4-byte segment and the fresh zero-byte segment that
the `Ok(0)` branch flushes before `break 'outer` — not exactly one; in
particular an upload task IS dispatched for a segment to which zero bytes
were written. -/
theorem c1_counterexample_empty_trailing_segment :
    run_loop 4 true (chunked_input [4]) 0 = some ⟨[4, 0], [4, 0]⟩ ∧
    ([4, 0] : List Nat).length ≠ 1 ∧ (0 : Nat) ∈ ([4, 0] : List Nat) := by
  refine ⟨by rfl, by simp, by simp⟩

/-- Claim C1, amended: when the input delivers exactly `max_size` bytes (in
any chunking, all writes succeeding) and then closes, the run terminates
normally after the drain having sealed exactly two segments and pushed
exactly two upload tasks: one for the `max_size`-byte segment, and one for
the zero-byte segment created after it, which the EOF branch also seals and
uploads. -/
theorem c1_exact_fill_then_close (max_size : Nat) (chunks : List Nat)
    (hpos : ∀ n ∈ chunks, 0 < n) (hsum : chunks.sum = max_size) (hne : chunks ≠ []) :
    run_loop max_size true (chunked_input chunks) 0 = some ⟨[max_size, 0], [max_size, 0]⟩ := by
  have main : ∀ (cs : List Nat) (cur : Nat), (∀ n ∈ cs, 0 < n) → cs ≠ [] →
      cur + cs.sum = max_size →
      run_loop max_size true (chunked_input cs) cur
        = some ⟨[max_size, 0], [max_size, 0]⟩ := by
    intro cs
    induction cs with
    | nil => intro cur _ hne' _; exact absurd rfl hne'
    | cons c cs ih =>
      intro cur hpos' _ hsum'
      obtain ⟨c', rfl⟩ : ∃ c', c = c' + 1 := by
        have := hpos' c (by simp)
        exact ⟨c - 1, by omega⟩
      match cs with
      | [] =>
        have hfill : cur + (c' + 1) = max_size := by simpa using hsum'
        simp only [chunked_input, List.map_cons, List.map_nil, List.nil_append,
          List.cons_append, run_loop]
        rw [if_pos trivial]
        have : cur + (c' + 1) ≥ max_size := by omega
        rw [if_pos this]
        simp [run_loop, seal_segment, hfill]
      | d :: cs' =>
        have hd : 0 < d := hpos' d (by simp)
        have hlt : ¬ cur + (c' + 1) ≥ max_size := by
          have : d + cs'.sum > 0 := by
            have := hpos' d (by simp)
            omega
          simp only [List.sum_cons] at hsum'
          omega
        simp only [chunked_input, List.map_cons, List.cons_append, run_loop]
        rw [if_pos trivial, if_neg hlt]
        have := ih (cur + (c' + 1)) (fun n hn => hpos' n (by simp [hn]))
          (by simp) (by simp only [List.sum_cons] at hsum' ⊢; omega)
        simpa [chunked_input] using this
  exact main chunks 0 hpos hne (by simpa using hsum)

/-- Witness for the amended C1 at `max_size = 4` delivered as chunks
`[3, 1]`. -/
theorem c1_exact_fill_then_close_witness :
    (∀ n ∈ [3, 1], 0 < n) ∧ ([3, 1] : List Nat).sum = 4 ∧ ([3, 1] : List Nat) ≠ [] ∧
    run_loop 4 true (chunked_input [3, 1]) 0 = some ⟨[4, 0], [4, 0]⟩ :=
  ⟨by decide, by decide, by decide,
    c1_exact_fill_then_close 4 [3, 1] (by decide) (by decide) (by decide)⟩

/-! ## C3 / C2: part planning -/

/-- Closed form of the part-planning loop: starting at offset `st ≤ size`
with part number `pn`, the loop produces one part per index
`i < ceil((size - st) / MAX_PART_SIZE)`, the `i`-th covering
`[st + i * MAX_PART_SIZE, min (st + (i+1) * MAX_PART_SIZE) size)` with part
number `pn + i`. -/
theorem plan_parts_aux_closed (size : Nat) :
    ∀ st pn, st ≤ size →
      plan_parts_aux size st pn =
        (List.range ((size - st + MAX_PART_SIZE - 1) / MAX_PART_SIZE)).map
          (fun i => ⟨pn + i, st + i * MAX_PART_SIZE,
                     min (st + (i + 1) * MAX_PART_SIZE) size⟩) := by
  have hM : MAX_PART_SIZE = 10485760 := by norm_num [MAX_PART_SIZE, Nat.shiftLeft_eq]
  suffices H : ∀ d st pn, size - st ≤ d → st ≤ size →
      plan_parts_aux size st pn =
        (List.range ((size - st + MAX_PART_SIZE - 1) / MAX_PART_SIZE)).map
          (fun i => ⟨pn + i, st + i * MAX_PART_SIZE,
                     min (st + (i + 1) * MAX_PART_SIZE) size⟩) by
    exact fun st pn hst => H (size - st) st pn le_rfl hst
  intro d
  induction d with
  | zero =>
    intro st pn hd hst
    have hst' : st = size := by omega
    subst hst'
    unfold plan_parts_aux
    rw [dif_neg (by omega)]
    rw [hM]
    norm_num
  | succ d ihd =>
    intro st pn hd hst
    by_cases h : st < size
    · unfold plan_parts_aux
      rw [dif_pos h]
      by_cases hA : st + MAX_PART_SIZE ≤ size
      · have hmin : min (st + MAX_PART_SIZE) size = st + MAX_PART_SIZE :=
          min_eq_left hA
        simp only [hmin]
        rw [ihd (st + MAX_PART_SIZE) (pn + 1) (by omega) hA]
        have hk : (size - st + MAX_PART_SIZE - 1) / MAX_PART_SIZE =
            (size - (st + MAX_PART_SIZE) + MAX_PART_SIZE - 1) / MAX_PART_SIZE + 1 := by
          rw [hM] at hA ⊢
          omega
        rw [hk, List.range_succ_eq_map, List.map_cons, List.map_map]
        congr 1
        · rw [hM] at hA
          simp [hM]
          omega
        · apply List.map_eq_map_iff.mpr
          intro i _
          simp only [Function.comp_apply, PartRange.mk.injEq]
          refine ⟨by omega, by rw [hM]; omega, ?_⟩
          congr 1
          rw [hM]
          omega
      · have hmin : min (st + MAX_PART_SIZE) size = size :=
          min_eq_right (by omega)
        simp only [hmin]
        unfold plan_parts_aux
        rw [dif_neg (by omega)]
        have hk : (size - st + MAX_PART_SIZE - 1) / MAX_PART_SIZE = 1 := by
          rw [hM] at hA ⊢
          omega
        rw [hk]
        have h1 : List.range 1 = [0] := by decide
        rw [h1]
        simp only [List.map_cons, List.map_nil]
        congr 1
        simp only [PartRange.mk.injEq]
        refine ⟨by omega, by omega, ?_⟩
        rw [hM] at hA ⊢
        omega
    · have hst' : st = size := by omega
      subst hst'
      unfold plan_parts_aux
      rw [dif_neg (by omega)]
      rw [hM]
      norm_num

/-- Claim C2: the single-shot versus multipart decision compares the on-disk
size to `MAX_PART_SIZE` = 10 MiB with a less-than-or-equal boundary; exactly
at the boundary the single-shot path is taken, one byte above it the
multipart path is taken and the plan is exactly two parts `[0, 10MiB)` and
`[10MiB, 10MiB + 1)`, of sizes `MAX_PART_SIZE` and `1`. -/
theorem c2_strategy_boundary :
    (∀ S : Nat, do_send_file_path S = SendPath.single ↔ S ≤ MAX_PART_SIZE) ∧
    (∀ S : Nat, do_send_file_path S = SendPath.multi ↔ S > MAX_PART_SIZE) ∧
    do_send_file_path MAX_PART_SIZE = SendPath.single ∧
    do_send_file_path (MAX_PART_SIZE + 1) = SendPath.multi ∧
    plan_parts (MAX_PART_SIZE + 1) =
      [⟨1, 0, MAX_PART_SIZE⟩, ⟨2, MAX_PART_SIZE, MAX_PART_SIZE + 1⟩] ∧
    (plan_parts (MAX_PART_SIZE + 1)).map (fun p => p.hi - p.lo) = [MAX_PART_SIZE, 1] := by
  have hM : MAX_PART_SIZE = 10485760 := by norm_num [MAX_PART_SIZE, Nat.shiftLeft_eq]
  have hiff : ∀ S : Nat, do_send_file_path S = SendPath.single ↔ S ≤ MAX_PART_SIZE := by
    intro S
    unfold do_send_file_path
    split_ifs with hs
    · simp [hs]
    · simp [hs]
  have hplan : plan_parts (MAX_PART_SIZE + 1) =
      [⟨1, 0, MAX_PART_SIZE⟩, ⟨2, MAX_PART_SIZE, MAX_PART_SIZE + 1⟩] := by
    unfold plan_parts
    rw [plan_parts_aux_closed (MAX_PART_SIZE + 1) 0 1 (by omega)]
    have hk : (MAX_PART_SIZE + 1 - 0 + MAX_PART_SIZE - 1) / MAX_PART_SIZE = 2 := by
      rw [hM]
    have h2 : List.range 2 = [0, 1] := by decide
    rw [hk, h2]
    simp only [List.map_cons, List.map_nil, PartRange.mk.injEq]
    rw [hM]
    norm_num
  refine ⟨hiff, ?_, (hiff MAX_PART_SIZE).mpr le_rfl, ?_, hplan, ?_⟩
  · intro S
    unfold do_send_file_path
    split_ifs with hs
    · simp
      omega
    · simp
      omega
  · unfold do_send_file_path
    rw [if_neg (by omega)]
  · rw [hplan]
    simp [hM]

/-- Claim C3: for every multipart upload (size `S > MAX_PART_SIZE`), the
planned parts carry the contiguous 1-based part numbers
`1..ceil(S / MAX_PART_SIZE)`; consecutive ranges abut (`hi = next lo`); they
are pairwise disjoint; their union is exactly `[0, S)`; every part except the
last has length exactly `MAX_PART_SIZE` and the last is non-empty and no
longer than `MAX_PART_SIZE`. -/
theorem c3_part_plan_covers (S : Nat) (hS : S > MAX_PART_SIZE) :
    (plan_parts S).map PartRange.num
      = List.range' 1 ((S + MAX_PART_SIZE - 1) / MAX_PART_SIZE) ∧
    List.Chain' (fun a b => a.hi = b.lo) (plan_parts S) ∧
    List.Pairwise (fun a b => a.hi ≤ b.lo) (plan_parts S) ∧
    (∀ x, (∃ p ∈ plan_parts S, p.lo ≤ x ∧ x < p.hi) ↔ x < S) ∧
    (∀ p ∈ (plan_parts S).dropLast, p.hi - p.lo = MAX_PART_SIZE) ∧
    (∀ p, (plan_parts S).getLast? = some p →
      0 < p.hi - p.lo ∧ p.hi - p.lo ≤ MAX_PART_SIZE) := by
  have hM : MAX_PART_SIZE = 10485760 := by norm_num [MAX_PART_SIZE, Nat.shiftLeft_eq]
  rw [hM] at hS
  have hcf : plan_parts S =
      (List.range ((S + MAX_PART_SIZE - 1) / MAX_PART_SIZE)).map
        (fun i => ⟨1 + i, i * MAX_PART_SIZE, min ((i + 1) * MAX_PART_SIZE) S⟩) := by
    unfold plan_parts
    rw [plan_parts_aux_closed S 0 1 (by omega)]
    simp
  obtain ⟨n0, hn0⟩ : ∃ n0, (S + MAX_PART_SIZE - 1) / MAX_PART_SIZE = n0 + 1 := by
    rw [hM]
    exact ⟨(S + 10485760 - 1) / 10485760 - 1, by omega⟩
  have hn0lit : (S + 10485760 - 1) / 10485760 = n0 + 1 := by rw [← hM]; exact hn0
  rw [hn0] at hcf
  refine ⟨?_, ?_, ?_, ?_, ?_, ?_⟩
  · rw [hcf, hn0, List.map_map, List.range'_eq_map_range]
    apply List.map_eq_map_iff.mpr
    intro i _
    simp
  · rw [hcf]
    rw [List.chain'_map]
    rw [List.chain'_range_succ]
    intro m hm
    simp only
    rw [hM]
    have : (m + 1) * 10485760 ≤ S := by omega
    omega
  · rw [hcf]
    rw [List.pairwise_map]
    apply List.Pairwise.imp ?_ (List.pairwise_lt_range _)
    intro a b hab
    simp only
    rw [hM]
    have : (a + 1) * 10485760 ≤ b * 10485760 := by omega
    omega
  · intro x
    rw [hcf]
    constructor
    · rintro ⟨p, hp, hlo, hhi⟩
      simp only [List.mem_map, List.mem_range] at hp
      obtain ⟨i, hi, rfl⟩ := hp
      simp only at hhi
      omega
    · intro hx
      refine ⟨⟨1 + x / MAX_PART_SIZE, (x / MAX_PART_SIZE) * MAX_PART_SIZE,
        min ((x / MAX_PART_SIZE + 1) * MAX_PART_SIZE) S⟩, ?_, ?_, ?_⟩
      · simp only [List.mem_map, List.mem_range]
        exact ⟨x / MAX_PART_SIZE, by rw [hM]; omega, rfl⟩
      · simp only
        rw [hM]
        omega
      · simp only
        rw [hM]
        omega
  · intro p hp
    rw [hcf] at hp
    rw [List.range_succ, List.map_append, List.map_cons, List.map_nil,
      List.dropLast_concat] at hp
    simp only [List.mem_map, List.mem_range] at hp
    obtain ⟨i, hi, rfl⟩ := hp
    simp only
    rw [hM]
    have : (i + 1) * 10485760 ≤ S := by omega
    omega
  · intro p hp
    rw [hcf, List.range_succ, List.map_append, List.map_cons, List.map_nil,
      List.getLast?_concat] at hp
    have hpe := Option.some.inj hp
    subst hpe
    simp only
    rw [hM]
    constructor
    · have h1 : n0 * 10485760 < S := by omega
      omega
    · have h2 : S ≤ (n0 + 1) * 10485760 := by omega
      omega

/-- Witness for C3 at the boundary size `MAX_PART_SIZE + 1`. -/
theorem c3_part_plan_covers_witness :
    MAX_PART_SIZE + 1 > MAX_PART_SIZE ∧
    (plan_parts (MAX_PART_SIZE + 1)).map PartRange.num
      = List.range' 1 ((MAX_PART_SIZE + 1 + MAX_PART_SIZE - 1) / MAX_PART_SIZE) :=
  ⟨by omega, (c3_part_plan_covers (MAX_PART_SIZE + 1) (by omega)).1⟩

/-! ## C6: the concrete template scenario, zero padding, and the nonce -/

/-- `dec_digits_aux` emits at most `k` digits when `n < 10 ^ k` (and the fuel
suffices). -/
theorem dec_digits_aux_len :
    ∀ (fuel n k : Nat), 1 ≤ k → n < 10 ^ k → n < 10 ^ fuel →
      (dec_digits_aux fuel n).length ≤ k := by
  intro fuel
  induction fuel with
  | zero =>
    intro n k _ _ hf
    simp [dec_digits_aux]
  | succ fuel ih =>
    intro n k hk hnk hf
    unfold dec_digits_aux
    by_cases hn : n < 10
    · simp [hn]
      omega
    · rw [if_neg hn]
      have hk2 : 2 ≤ k := by
        by_contra hlt
        have : k = 1 := by omega
        subst this
        simp at hnk
        omega
      have h1 : n / 10 < 10 ^ (k - 1) := by
        have : 10 ^ k = 10 ^ (k - 1) * 10 := by
          conv_lhs => rw [show k = (k - 1) + 1 by omega]
          rw [pow_succ]
        omega
      have h2 : n / 10 < 10 ^ fuel := by
        have : 10 ^ (fuel + 1) = 10 ^ fuel * 10 := pow_succ 10 fuel
        omega
      have := ih (n / 10) (k - 1) (by omega) h1 h2
      simp only [List.length_append, List.length_cons, List.length_nil]
      omega

/-- `n` always fits in `n + 1` decimal digits of fuel. -/
theorem lt_ten_pow_self_succ (n : Nat) : n < 10 ^ (n + 1) := by
  have h1 : n < 2 ^ n := Nat.lt_two_pow n
  have h2 : 2 ^ n ≤ 10 ^ n := Nat.pow_le_pow_left (by norm_num) n
  have h3 : 10 ^ n ≤ 10 ^ (n + 1) := Nat.pow_le_pow_right (by norm_num) (by omega)
  omega

/-- The decimal representation of `n < 10 ^ k` has at most `k` digits. -/
theorem dec_repr_len_le (n k : Nat) (hk : 1 ≤ k) (hn : n < 10 ^ k) :
    (dec_repr n).length ≤ k :=
  dec_digits_aux_len (n + 1) n k hk hn (lt_ten_pow_self_succ n)

/-- Rust's `{:0w}` formatting yields exactly `w` characters whenever the
value fits in `w` decimal digits. -/
theorem zero_pad_length (w n : Nat) (hw : 1 ≤ w) (hn : n < 10 ^ w) :
    (zero_pad w n).length = w := by
  have := dec_repr_len_le n w hw hn
  simp [zero_pad]
  omega

/-- Each byte contributes exactly eight bits. -/
theorem flatMap_byte_bits_length :
    ∀ bytes : List Nat, (bytes.flatMap byte_bits).length = 8 * bytes.length := by
  intro bytes
  induction bytes with
  | nil => rfl
  | cons b bs ih =>
    simp only [List.flatMap_cons, List.length_append, List.length_cons, ih]
    simp [byte_bits]
    omega

/-- A bit string of length `5 * k` yields exactly `k` base-32 groups. -/
theorem groups_of_5_length :
    ∀ (k : Nat) (l : List Bool), l.length = 5 * k → (groups_of_5 l).length = k := by
  intro k
  induction k with
  | zero =>
    intro l hl
    have : l = [] := List.length_eq_zero.mp (by omega)
    subst this
    rfl
  | succ k ih =>
    intro l hl
    match l with
    | b4 :: b3 :: b2 :: b1 :: b0 :: rest =>
      simp only [groups_of_5, List.length_cons]
      rw [ih rest (by simp at hl; omega)]
    | [] => simp at hl
    | [a] => simp at hl; omega
    | [a, b] => simp at hl; omega
    | [a, b, c] => simp at hl; omega
    | [a, b, c, d] => simp at hl; omega

/-- Every base-32 group value is below 32. -/
theorem groups_of_5_lt :
    ∀ (l : List Bool), ∀ v ∈ groups_of_5 l, v < 32 := by
  have hbit : ∀ b : Bool, bit_val b ≤ 1 := by
    intro b
    cases b <;> simp [bit_val]
  have main : ∀ (k : Nat) (l : List Bool), l.length ≤ k → ∀ v ∈ groups_of_5 l, v < 32 := by
    intro k
    induction k with
    | zero =>
      intro l hl v hv
      have : l = [] := List.length_eq_zero.mp (by omega)
      subst this
      simp [groups_of_5] at hv
    | succ k ih =>
      intro l hl v hv
      match l with
      | [] => simp [groups_of_5] at hv
      | [a] =>
        simp only [groups_of_5, List.mem_singleton] at hv
        subst hv
        have := hbit a
        have hf : bit_val false = 0 := rfl
        simp [List.getD]
        omega
      | [a, b] =>
        simp only [groups_of_5, List.mem_singleton] at hv
        subst hv
        have := hbit a
        have := hbit b
        have hf : bit_val false = 0 := rfl
        simp [List.getD]
        omega
      | [a, b, c] =>
        simp only [groups_of_5, List.mem_singleton] at hv
        subst hv
        have := hbit a
        have := hbit b
        have := hbit c
        have hf : bit_val false = 0 := rfl
        simp [List.getD]
        omega
      | [a, b, c, d] =>
        simp only [groups_of_5, List.mem_singleton] at hv
        subst hv
        have := hbit a
        have := hbit b
        have := hbit c
        have := hbit d
        have hf : bit_val false = 0 := rfl
        simp [List.getD]
        omega
      | b4 :: b3 :: b2 :: b1 :: b0 :: rest =>
        simp only [groups_of_5, List.mem_cons] at hv
        rcases hv with rfl | hv
        · have := hbit b4
          have := hbit b3
          have := hbit b2
          have := hbit b1
          have := hbit b0
          omega
        · exact ih rest (by simp at hl; omega) v hv
  exact fun l => main l.length l le_rfl

/-- The base-32 encoding of a 15-byte nonce has exactly 24 characters. -/
theorem base32_encode_length (nonce : List Nat) (h15 : nonce.length = 15) :
    (base32_encode nonce).length = 24 := by
  unfold base32_encode
  rw [List.length_map]
  apply groups_of_5_length 24
  rw [flatMap_byte_bits_length, h15]

/-- Every character of a base-32 encoding is drawn from the RFC 4648
alphabet. -/
theorem base32_encode_mem_alphabet (nonce : List Nat) :
    ∀ c ∈ base32_encode nonce, c ∈ base32_alphabet := by
  have hchar : ∀ v, v < 32 → base32_char v ∈ base32_alphabet := by decide
  intro c hc
  unfold base32_encode at hc
  rw [List.mem_map] at hc
  obtain ⟨v, hv, rfl⟩ := hc
  exact hchar v (groups_of_5_lt _ v hv)

/-- Claim C6: on the concrete scenario — pattern
`"test {host_id} {year}-{month}-{day}T{hour}:{minute}:{second}Z {unique}"`,
host id `"localhost"`, timestamp 2020-05-04T15:20:10Z, nonce bytes
`4B D6 97 AD 2F 5A 5E B4 BD 69 7A D2 F5 A5 EB` — evaluation returns exactly
`"test localhost 2020-05-04T15:20:10Z JPLJPLJPLJPLJPLJPLJPLJPL"`; and in
general the date variables substitute the zero-padded decimal value (4
digits for the year, 2 for the rest, whenever the value fits that many
digits), and the `unique` variable substitutes the unpadded RFC 4648 base32
encoding of the 15-byte nonce, which is exactly 24 alphabet characters. -/
theorem c6_template_evaluation (host : List Char) (now : UTCTime) (nonce : List Nat)
    (h15 : nonce.length = 15) (hy : now.year < 10 ^ 4) (hmo : now.month < 10 ^ 2)
    (hd : now.day < 10 ^ 2) (hh : now.hour < 10 ^ 2) (hmi : now.minute < 10 ^ 2)
    (hs : now.second < 10 ^ 2) :
    evaluate_pattern_at
        "test {host_id} {year}-{month}-{day}T{hour}:{minute}:{second}Z {unique}".toList
        "localhost".toList ⟨2020, 5, 4, 15, 20, 10⟩
        [0x4b, 0xd6, 0x97, 0xad, 0x2f, 0x5a, 0x5e, 0xb4, 0xbd, 0x69, 0x7a, 0xd2, 0xf5, 0xa5, 0xeb]
      = Except.ok "test localhost 2020-05-04T15:20:10Z JPLJPLJPLJPLJPLJPLJPLJPL".toList ∧
    template_variables host now nonce "year".toList = some (zero_pad 4 now.year) ∧
    (zero_pad 4 now.year).length = 4 ∧
    template_variables host now nonce "month".toList = some (zero_pad 2 now.month) ∧
    (zero_pad 2 now.month).length = 2 ∧
    template_variables host now nonce "day".toList = some (zero_pad 2 now.day) ∧
    (zero_pad 2 now.day).length = 2 ∧
    template_variables host now nonce "hour".toList = some (zero_pad 2 now.hour) ∧
    (zero_pad 2 now.hour).length = 2 ∧
    template_variables host now nonce "minute".toList = some (zero_pad 2 now.minute) ∧
    (zero_pad 2 now.minute).length = 2 ∧
    template_variables host now nonce "second".toList = some (zero_pad 2 now.second) ∧
    (zero_pad 2 now.second).length = 2 ∧
    template_variables host now nonce "unique".toList = some (base32_encode nonce) ∧
    (base32_encode nonce).length = 24 ∧
    (∀ c ∈ base32_encode nonce, c ∈ base32_alphabet) := by
  refine ⟨by rfl, by rfl, zero_pad_length 4 now.year (by omega) hy,
    by rfl, zero_pad_length 2 now.month (by omega) hmo,
    by rfl, zero_pad_length 2 now.day (by omega) hd,
    by rfl, zero_pad_length 2 now.hour (by omega) hh,
    by rfl, zero_pad_length 2 now.minute (by omega) hmi,
    by rfl, zero_pad_length 2 now.second (by omega) hs,
    by rfl, base32_encode_length nonce h15,
    base32_encode_mem_alphabet nonce⟩

/-- Witness for C6 at the scenario's own host id, timestamp and nonce. -/
theorem c6_template_evaluation_witness :
    ([0x4b, 0xd6, 0x97, 0xad, 0x2f, 0x5a, 0x5e, 0xb4, 0xbd, 0x69, 0x7a, 0xd2,
        0xf5, 0xa5, 0xeb] : List Nat).length = 15 ∧
    (2020 : Nat) < 10 ^ 4 ∧ (5 : Nat) < 10 ^ 2 ∧ (4 : Nat) < 10 ^ 2 ∧
    (15 : Nat) < 10 ^ 2 ∧ (20 : Nat) < 10 ^ 2 ∧ (10 : Nat) < 10 ^ 2 ∧
    (zero_pad 4 (2020 : Nat)).length = 4 ∧
    (base32_encode [0x4b, 0xd6, 0x97, 0xad, 0x2f, 0x5a, 0x5e, 0xb4, 0xbd, 0x69,
        0x7a, 0xd2, 0xf5, 0xa5, 0xeb]).length = 24 :=
  ⟨by decide, by decide, by decide, by decide, by decide, by decide, by decide,
    (c6_template_evaluation "localhost".toList ⟨2020, 5, 4, 15, 20, 10⟩
      [0x4b, 0xd6, 0x97, 0xad, 0x2f, 0x5a, 0x5e, 0xb4, 0xbd, 0x69, 0x7a, 0xd2, 0xf5, 0xa5, 0xeb]
      (by decide) (by decide) (by decide) (by decide) (by decide) (by decide) (by decide)).2.2.1,
    (c6_template_evaluation "localhost".toList ⟨2020, 5, 4, 15, 20, 10⟩
      [0x4b, 0xd6, 0x97, 0xad, 0x2f, 0x5a, 0x5e, 0xb4, 0xbd, 0x69, 0x7a, 0xd2, 0xf5, 0xa5, 0xeb]
      (by decide) (by decide) (by decide) (by decide) (by decide) (by decide)
      (by decide)).2.2.2.2.2.2.2.2.2.2.2.2.2.2.1⟩

/-! ## C7: the template evaluator's error conditions -/

/-- The remainder after the first `'}'` is strictly shorter than the input. -/
theorem split_at_close_length :
    ∀ (m nm r2 : List Char), split_at_close m = some (nm, r2) → r2.length < m.length := by
  intro m
  induction m with
  | nil => intro nm r2 hsplit; simp [split_at_close] at hsplit
  | cons c m ih =>
    intro nm r2 hsplit
    by_cases hc : c = '}'
    · simp [split_at_close, hc] at hsplit
      obtain ⟨h1, h2⟩ := hsplit
      subst h2
      simp
    · simp [split_at_close, hc] at hsplit
      obtain ⟨p, hp, hnm⟩ := hsplit
      have := ih p r2 hp
      simp
      omega

/-- Substituted output does not affect the success-or-error outcome. -/
theorem template_outcome_map (f : List Char → List Char)
    (r : Except TemplateErr (List Char)) :
    template_outcome (r.map f) = template_outcome r := by
  cases r <;> rfl

/-- Inside a variable, the evaluator consumes characters up to the first
`'}'` exactly as `split_at_close` describes: no `'}'` means `Unmatched '{'`,
otherwise the accumulated name is trimmed and looked up. -/
theorem eval_pattern_chars_var_scan (vars : List Char → Option (List Char)) :
    ∀ (l acc : List Char),
      eval_pattern_chars vars (some acc) l =
        match split_at_close l with
        | none => Except.error TemplateErr.unmatchedOpen
        | some (nm, rest) =>
          match vars (trim_chars (acc.reverse ++ nm)) with
          | none => Except.error (TemplateErr.unknownVariable (trim_chars (acc.reverse ++ nm)))
          | some repl => (eval_pattern_chars vars none rest).map (fun r => repl ++ r)
      := by
  intro l
  induction l with
  | nil =>
    intro acc
    simp [eval_pattern_chars, split_at_close]
  | cons c rest ih =>
    intro acc
    by_cases hc : c = '}'
    · subst hc
      simp only [eval_pattern_chars, if_pos rfl, split_at_close]
      simp
    · simp only [eval_pattern_chars, if_neg hc, split_at_close]
      rw [ih (c :: acc)]
      cases hsp : split_at_close rest with
      | none => simp
      | some pr =>
        obtain ⟨nm, r2⟩ := pr
        have hacc : (c :: acc).reverse ++ nm = acc.reverse ++ (c :: nm) := by simp
        simp [hacc]

/-- A lookup in the variables map succeeds exactly for the eight recognized
names, whatever the host id, timestamp and nonce are. -/
theorem template_variables_none_iff (host : List Char) (now : UTCTime) (nonce : List Nat)
    (nm : List Char) :
    template_variables host now nonce nm = none ↔ nm ∉ template_variable_names := by
  unfold template_variables template_variable_names
  split_ifs <;> simp_all

/-- Unfolding of the spec scanner on a variable opening: a `'{'` followed by
anything but `'{'` scans to the first `'}'` and checks the trimmed name. -/
theorem spec_template_scan_open (c2 : Char) (rest2 : List Char) (hc2 : ¬c2 = '{') :
    spec_template_scan ('{' :: c2 :: rest2) =
      match split_at_close (c2 :: rest2) with
      | none => Except.error TemplateErr.unmatchedOpen
      | some (nm, rest3) =>
        if trim_chars nm ∈ template_variable_names then spec_template_scan rest3
        else Except.error (TemplateErr.unknownVariable (trim_chars nm)) := by
  conv_lhs => rw [spec_template_scan]
  rw [if_pos rfl, if_neg hc2]
  split
  next h => rw [h]
  next nm rest3 h => rw [h]

/-- Claim C7: for every pattern (and any host id, timestamp and nonce),
`evaluate_pattern_at` succeeds or fails exactly as the spec describes:
`Unmatched '{'` when an opened variable never meets its `'}'` (including a
trailing bare `'{'`), `Unmatched '}'` for a bare undoubled `'}'` outside a
variable, `Unknown template variable '<name>'` when a brace-enclosed trimmed
name is none of the eight recognized variables — taking the first such
condition in scan order — and success in all other cases. -/
theorem c7_template_error_conditions (p host : List Char) (now : UTCTime) (nonce : List Nat) :
    template_outcome (evaluate_pattern_at p host now nonce) = spec_template_scan p := by
  unfold evaluate_pattern_at
  have main : ∀ (k : Nat) (q : List Char), q.length ≤ k →
      template_outcome (eval_pattern_chars (template_variables host now nonce) none q)
        = spec_template_scan q := by
    intro k
    induction k with
    | zero =>
      intro q hq
      have : q = [] := List.length_eq_zero.mp (by omega)
      subst this
      simp [eval_pattern_chars, spec_template_scan, template_outcome]
    | succ k ih =>
      intro q hq
      match q with
      | [] => simp [eval_pattern_chars, spec_template_scan, template_outcome]
      | c :: rest =>
        by_cases hc : c = '{'
        · subst hc
          match rest with
          | [] => simp [eval_pattern_chars, spec_template_scan, template_outcome]
          | c2 :: rest2 =>
            by_cases hc2 : c2 = '{'
            · subst hc2
              have hrec := ih rest2 (by simp at hq; omega)
              simp [eval_pattern_chars, spec_template_scan, template_outcome_map, hrec]
            · have heval : eval_pattern_chars (template_variables host now nonce) none
                    ('{' :: c2 :: rest2)
                  = eval_pattern_chars (template_variables host now nonce) (some [])
                    (c2 :: rest2) := by
                simp [eval_pattern_chars, hc2]
              have hvar := eval_pattern_chars_var_scan
                (template_variables host now nonce) (c2 :: rest2) []
              simp only [List.reverse_nil, List.nil_append] at hvar
              rw [heval, hvar, spec_template_scan_open c2 rest2 hc2]
              cases hsp : split_at_close (c2 :: rest2) with
              | none => simp only [hsp, template_outcome]
              | some pr =>
                obtain ⟨nm, rest3⟩ := pr
                simp only [hsp]
                cases hv : template_variables host now nonce (trim_chars nm) with
                | none =>
                  have hmem := (template_variables_none_iff host now nonce
                    (trim_chars nm)).mp hv
                  simp only [hv, if_neg hmem]
                  rfl
                | some repl =>
                  have hmem : trim_chars nm ∈ template_variable_names := by
                    by_contra hnot
                    rw [← template_variables_none_iff host now nonce (trim_chars nm)] at hnot
                    rw [hv] at hnot
                    exact Option.noConfusion hnot
                  have hlen := split_at_close_length _ _ _ hsp
                  have hrec := ih rest3 (by simp at hq hlen; omega)
                  simp only [hv, if_pos hmem, template_outcome_map]
                  exact hrec
        · by_cases hc' : c = '}'
          · subst hc'
            match rest with
            | [] => simp [eval_pattern_chars, spec_template_scan, template_outcome, hc]
            | c2 :: rest2 =>
              by_cases hc2 : c2 = '}'
              · subst hc2
                have hrec := ih rest2 (by simp at hq; omega)
                simp [eval_pattern_chars, spec_template_scan, template_outcome_map, hrec, hc]
              · simp [eval_pattern_chars, spec_template_scan, template_outcome, hc, hc2]
          · have hrec := ih rest (by simp at hq; omega)
            rw [eval_pattern_chars.eq_def]
            simp only [hc, hc', if_false, if_neg]
            rw [template_outcome_map, hrec]
            conv_rhs => rw [spec_template_scan.eq_def]
            simp only [hc, hc', if_false, if_neg]
  exact main p.length p le_rfl
